import Mathlib

/-!
Verification development for the content-suite backend core
(`app/services/workflow.py`, `app/services/rag_service.py`,
`app/services/governance_service.py`, `app/services/journey_service.py`,
`app/services/creative_assets_service.py`, `app/db/models.py`).

Shallow embedding conventions:
* Python floats are modelled by `ℚ`; `math.sqrt` is modelled by `Rat.sqrt`
  (the rational square-root approximation); the properties proved below rely
  only on behaviour shared with the real square root (non-negativity and
  vanishing exactly on zero).
* JSON values are modelled by the inductive `Json`; a parsed JSON object is
  a key/value list with distinct keys.
* The transactional store is modelled by explicit state records; an HTTP
  exception raised before `db.commit` leaves the state unchanged, which the
  embedding renders by returning the input state on error paths.
* Store-generated columns (uuid primary keys, wall-clock timestamps) are
  modelled deterministically: a journal row appended to a journal with `n`
  rows gets `created_at = n` (timestamps are monotone per asset) and a
  placeholder id derived from `n`.
* The `Asset not found` branches (pure store lookups) are not modelled:
  operations take the looked-up asset's state directly.
-/

namespace ContentSuite

/-- `app/db/models.py` `WorkflowStatus`. -/
inductive WorkflowStatus
  | pendingA
  | pendingB
  | approved
  | rejected
deriving DecidableEq, Repr

/-- `app/db/models.py` `AuditVerdict`. -/
inductive AuditVerdict
  | check
  | fail
deriving DecidableEq, Repr

/-- `app/db/models.py` `JourneyEventType` — the full event-type vocabulary. -/
inductive JourneyEventType
  | assetCreated
  | reviewAApproved
  | reviewARejected
  | auditCheck
  | auditFail
deriving DecidableEq, Repr

/-- `app/db/models.py` `AssetType`. -/
inductive AssetType
  | productDescription
  | videoScript
  | imagePrompt
deriving DecidableEq, Repr

/-- The `.value` string of a `WorkflowStatus` member. -/
def WorkflowStatus.value : WorkflowStatus → String
  | .pendingA => "pending_a"
  | .pendingB => "pending_b"
  | .approved => "approved"
  | .rejected => "rejected"

/-- The `.value` string of an `AuditVerdict` member. -/
def AuditVerdict.value : AuditVerdict → String
  | .check => "check"
  | .fail => "fail"

/-- The `.value` string of an `AssetType` member. -/
def AssetType.value : AssetType → String
  | .productDescription => "product_description"
  | .videoScript => "video_script"
  | .imagePrompt => "image_prompt"

/-- `app/services/workflow.py` `_ALLOWED_TRANSITIONS` (a dict of sets,
modelled as a function to lists). -/
def allowed_transitions : WorkflowStatus → List WorkflowStatus
  | .pendingA => [.pendingB, .rejected]
  | .pendingB => [.approved, .rejected]
  | .approved => []
  | .rejected => []

/-- `app/services/workflow.py` `can_transition`. -/
def can_transition (current target : WorkflowStatus) : Bool :=
  decide (target ∈ allowed_transitions current)

/-! ### JSON values and Python-level conversions -/

/-- A JSON value as produced by `json.loads`. -/
inductive Json
  | null
  | bool (b : Bool)
  | num (q : ℚ)
  | str (s : String)
  | arr (elems : List Json)
  | obj (fields : List (String × Json))

/-- The Python exceptions relevant to audit-decision parsing.
`json.JSONDecodeError` is a subclass of `ValueError`. -/
inductive PyErr
  | valueError
  | typeError
  | attributeError
deriving DecidableEq, Repr

/-- `dict.get k` on a parsed JSON object (parsed dicts have distinct keys). -/
def dictGet (fields : List (String × Json)) (k : String) : Option Json :=
  (fields.find? (fun kv => kv.1 == k)).map (·.2)

/-- Python `str.strip()` on a character list: drop whitespace from both
ends. -/
def pyStripChars (cs : List Char) : List Char :=
  ((cs.dropWhile Char.isWhitespace).reverse.dropWhile Char.isWhitespace).reverse

/-- Python `str.strip()`. -/
def pyStrip (s : String) : String := ⟨pyStripChars s.data⟩

/-- Splitter for Python `str.split(sep)` with non-empty `sep`; the fuel is
the input length (each step consumes at least one character). -/
def pySplitOnAux (sep : List Char) : ℕ → List Char → List Char → List (List Char)
  | 0, s, acc => [acc.reverse ++ s]
  | _ + 1, [], acc => [acc.reverse]
  | n + 1, c :: rest, acc =>
      if sep.isPrefixOf (c :: rest) then
        acc.reverse :: pySplitOnAux sep n ((c :: rest).drop sep.length) []
      else
        pySplitOnAux sep n rest (c :: acc)

/-- Python `s.split(sep)` for a non-empty separator (an empty separator
raises in Python and never occurs here). -/
def pySplitOn (s sep : String) : List String :=
  if sep.data.isEmpty then [s]
  else (pySplitOnAux sep.data s.data.length s.data []).map fun cs => ⟨cs⟩

/-- Python `str.strip` composed with a sign character, used by the decimal
reader below. -/
def parseSign : List Char → ℚ × List Char
  | '+' :: rest => (1, rest)
  | '-' :: rest => (-1, rest)
  | cs => (1, cs)

/-- Digits-to-number accumulator. -/
def digitsToNat (cs : List Char) : ℕ :=
  cs.foldl (fun n c => n * 10 + (c.toNat - '0'.toNat)) 0

/-- Splits a character list at the first character satisfying `p`,
dropping that character; `none` when no such character occurs. -/
def splitOnce (p : Char → Bool) (cs : List Char) : List Char × Option (List Char) :=
  match cs.span (fun c => !(p c)) with
  | (pre, []) => (pre, none)
  | (pre, _ :: post) => (pre, some post)

/-- Reads an unsigned decimal mantissa (`123`, `1.5`, `.5`, `2.`). -/
def parseMantissa? (cs : List Char) : Option ℚ :=
  match splitOnce (· == '.') cs with
  | (ip, none) =>
      if ip ≠ [] ∧ ip.all Char.isDigit then some (digitsToNat ip) else none
  | (ip, some fp) =>
      if (ip ≠ [] ∨ fp ≠ []) ∧ ip.all Char.isDigit ∧ fp.all Char.isDigit then
        some ((digitsToNat ip : ℚ) + (digitsToNat fp : ℚ) / (10 : ℚ) ^ fp.length)
      else none

/-- Reads a signed integer exponent. -/
def parseExponent? (cs : List Char) : Option ℤ :=
  let (sgn, cs') := parseSign cs
  if cs' ≠ [] ∧ cs'.all Char.isDigit then
    some (if sgn = 1 then (digitsToNat cs' : ℤ) else -(digitsToNat cs' : ℤ))
  else none

/-- Python `float(s)` on a string, modelled for finite decimal literals
(optional surrounding whitespace, sign, decimal point, exponent); `none`
models a raised `ValueError`. -/
def pyFloatOfString? (s : String) : Option ℚ := do
  let cs := pyStripChars s.data
  let (sgn, cs) := parseSign cs
  let (mant, expPart) := splitOnce (fun c => c == 'e' || c == 'E') cs
  let m ← parseMantissa? mant
  let e ← match expPart with
    | none => pure (0 : ℤ)
    | some ecs => parseExponent? ecs
  pure (sgn * m * (10 : ℚ) ^ e)

/-- Python `float(x)` applied to a JSON value: numbers pass through,
booleans coerce to `0`/`1`, numeric strings are read, anything else raises
(`ValueError` for non-numeric strings, `TypeError` otherwise). -/
def pyFloat : Json → Except PyErr ℚ
  | .num q => .ok q
  | .bool b => .ok (if b then 1 else 0)
  | .str s =>
      match pyFloatOfString? s with
      | some q => .ok q
      | none => .error .valueError
  | _ => .error .typeError

/-! ### Chunker (`app/services/rag_service.py` `RagService.chunk_text`) -/

namespace RagService

/-- `RagService.chunk_text`: greedy separator-based accumulation with the
final `chunks or [content_text]` fallback. -/
def chunk_text (content_text : String) (max_chars : ℕ) (separator : String) :
    List String :=
  let parts :=
    ((pySplitOn content_text separator).map pyStrip).filter
      (fun p => decide (p ≠ ""))
  let step := fun (acc : List String × String) (part : String) =>
    let chunks := acc.1
    let current := acc.2
    let chunk_piece := pyStrip (separator ++ part)
    let candidate :=
      if current ≠ "" then pyStrip (current ++ "\n\n" ++ chunk_piece) else chunk_piece
    if candidate.length ≤ max_chars then (chunks, candidate)
    else ((if current ≠ "" then chunks ++ [current] else chunks), chunk_piece)
  let folded := parts.foldl step ([], "")
  let chunks := if folded.2 ≠ "" then folded.1 ++ [folded.2] else folded.1
  if chunks.isEmpty then [content_text] else chunks

/-- Python `x or 1.0` on a float `x`: `0.0` is falsy. -/
def pyOrOne (q : ℚ) : ℚ := if q = 0 then 1 else q

/-- `RagService._cosine_distance`: `1 - dot(a, b) / (norm_a * norm_b)` with
zero-safe norms. `math.sqrt` is modelled by `Rat.sqrt` (see the file
header). -/
def cosine_distance (a b : List ℚ) : ℚ :=
  let numerator := ((a.zip b).map (fun p => p.1 * p.2)).sum
  let norm_a := pyOrOne (Rat.sqrt ((a.map (fun x => x * x)).sum))
  let norm_b := pyOrOne (Rat.sqrt ((b.map (fun y => y * y)).sum))
  1 - numerator / (norm_a * norm_b)

end RagService

/-- `app/db/models.py` `BrandManualChunk` (aliased `RagChunk`); the scope
field is `manual_id` (`RAG_CHUNK_SCOPE_FIELD`). -/
structure RagChunk where
  manual_id : String
  chunk_index : ℕ
  chunk_text : String
  embedding : List ℚ

namespace RagService

/-- `RagService.retrieve_relevant_chunks`, fallback (non-postgres) path:
the stored chunk table is filtered to the scope, ranked by cosine distance
to the query embedding with Python's stable `sorted` (modelled by the
stable `List.insertionSort`), truncated to `top_k` and projected to text.
The query embedding stands for `embedding_service.embed_text(query_text)`. -/
def retrieve_relevant_chunks (chunks : List RagChunk) (scope_id : String)
    (query_embedding : List ℚ) (top_k : ℕ) : List String :=
  let in_scope := chunks.filter (fun c => decide (c.manual_id = scope_id))
  let ranked := in_scope.insertionSort
    (fun c d => cosine_distance c.embedding query_embedding ≤
      cosine_distance d.embedding query_embedding)
  (ranked.take top_k).map (·.chunk_text)

end RagService

/-- Pairs every element with its position, starting at `n`. -/
def withIdx (n : ℕ) : List α → List (ℕ × α)
  | [] => []
  | a :: l => (n, a) :: withIdx (n + 1) l

/-- Modelled from the spec: the fallback retrieval ordering — scope chunks
sorted ascending by cosine distance with ties broken by original chunk
order — rendered as a sort by the lexicographic (distance, original
position) order, then truncation to `top_k` and projection to text. -/
def retrieveSpec (chunks : List RagChunk) (scope_id : String)
    (query_embedding : List ℚ) (top_k : ℕ) : List String :=
  let in_scope := chunks.filter (fun c => decide (c.manual_id = scope_id))
  let ranked := (withIdx 0 in_scope).insertionSort
    (fun c d =>
      RagService.cosine_distance c.2.embedding query_embedding <
        RagService.cosine_distance d.2.embedding query_embedding ∨
      (RagService.cosine_distance c.2.embedding query_embedding =
        RagService.cosine_distance d.2.embedding query_embedding ∧ c.1 ≤ d.1))
  ((ranked.map (·.2)).take top_k).map (·.chunk_text)

/-! ### Governance data model -/

/-- `app/db/models.py` `CreativeAsset` (scalar columns). -/
structure Asset where
  id : String
  manual_id : String
  created_by_id : String
  asset_type : AssetType
  brief : String
  generated_text : String
  workflow_status : WorkflowStatus
  reviewer_a_id : Option String
  reviewer_b_id : Option String
  rejection_reason : Option String
  created_at : ℕ

/-- `app/db/models.py` `AssetJourneyEvent` (scalar columns; see the file
header for how store-generated `id`/`created_at` are modelled). -/
structure JourneyEvent where
  id : String
  asset_id : String
  actor_id : Option String
  event_type : JourneyEventType
  from_status : Option WorkflowStatus
  to_status : WorkflowStatus
  note : String
  payload : Option (List (String × Json))
  created_at : ℕ

/-- `app/db/models.py` `MultimodalAudit` (scalar columns; the store
generates `id`, passed here by the caller as the fresh uuid). The
`explanation` column receives whatever JSON value the parser extracted. -/
structure MultimodalAudit where
  id : String
  asset_id : String
  approver_id : String
  image_path : String
  verdict : AuditVerdict
  explanation : Json
  confidence : ℚ

/-- One asset's slice of the transactional store: the asset row, its
journal rows and its audit rows. -/
structure AssetState where
  asset : Asset
  events : List JourneyEvent
  audits : List MultimodalAudit

/-- `app/schemas/governance.py` `ReviewARequest`. -/
structure ReviewARequest where
  decision : WorkflowStatus
  rejection_reason : Option String := none

/-- `app/schemas/governance.py` `ReviewBRequest`. -/
structure ReviewBRequest where
  decision : WorkflowStatus
  rejection_reason : Option String := none

/-- The HTTP error classes raised by the governance service:
404, 400, 409, 502, and a Python exception escaping the handler (500). -/
inductive GovError
  | notFound
  | badRequest
  | conflict
  | badGateway
  | internalError
deriving DecidableEq, Repr

/-- Python truthiness of an optional string (`None` and `""` are falsy). -/
def pyTruthyStr : Option String → Bool
  | none => false
  | some s => !s.isEmpty

/-- Python `str(x)` of an optional string as interpolated by an f-string
(`None` prints as `"None"`). -/
def pyStr : Option String → String
  | none => "None"
  | some s => s

/-- A JSON payload value for an optional string (`None` serialises to
`null`). -/
def jsonOfOptStr : Option String → Json
  | none => .null
  | some s => .str s

/-- `app/services/journey_service.py` `log_journey_event`: appends one
journal row; the store-generated `id`/`created_at` are modelled from the
current journal length (see the file header). -/
def log_journey_event (events : List JourneyEvent) (asset_id : String)
    (actor_id : Option String) (event_type : JourneyEventType)
    (from_status : Option WorkflowStatus) (to_status : WorkflowStatus)
    (note : String) (payload : Option (List (String × Json))) :
    List JourneyEvent :=
  events ++ [{ id := "event-" ++ toString events.length
               asset_id := asset_id
               actor_id := actor_id
               event_type := event_type
               from_status := from_status
               to_status := to_status
               note := note
               payload := payload
               created_at := events.length }]

/-- `governance_service._event_for_review`. -/
def event_for_review (payload : ReviewARequest) : JourneyEventType × String :=
  if payload.decision = .pendingB then
    (.reviewAApproved, "Approver A aprobó y envió a Approver B")
  else
    (.reviewARejected, "Approver A rechazó: " ++ pyStr payload.rejection_reason)

/-- `governance_service._event_for_audit`. -/
def event_for_audit (verdict : AuditVerdict) : JourneyEventType × String :=
  if verdict = .check then (.auditCheck, "Auditoría multimodal aprobada")
  else (.auditFail, "Auditoría multimodal fallida")

/-- `governance_service.review_by_approver_a` on the looked-up asset's
state. -/
def review_by_approver_a (payload : ReviewARequest) (reviewer_id : String)
    (st : AssetState) : Except GovError AssetState :=
  if ¬ (payload.decision = .pendingB ∨ payload.decision = .rejected) then
    .error .badRequest
  else if ¬ can_transition st.asset.workflow_status payload.decision then
    .error .conflict
  else if payload.decision = .rejected ∧ pyTruthyStr payload.rejection_reason = false then
    .error .badRequest
  else
    let previous_status := st.asset.workflow_status
    let asset := { st.asset with
      workflow_status := payload.decision
      reviewer_a_id := some reviewer_id
      rejection_reason := payload.rejection_reason }
    let evNote := event_for_review payload
    let events := log_journey_event st.events st.asset.id (some reviewer_id)
      evNote.1 (some previous_status) payload.decision evNote.2
      (some [("rejection_reason", jsonOfOptStr payload.rejection_reason)])
    .ok { st with asset := asset, events := events }

/-- `governance_service.review_by_approver_b` on the looked-up asset's
state. -/
def review_by_approver_b (payload : ReviewBRequest) (reviewer_id : String)
    (st : AssetState) : Except GovError AssetState :=
  if ¬ (payload.decision = .approved ∨ payload.decision = .rejected) then
    .error .badRequest
  else if ¬ can_transition st.asset.workflow_status payload.decision then
    .error .conflict
  else
    let previous_status := st.asset.workflow_status
    let asset := { st.asset with
      workflow_status := payload.decision
      reviewer_b_id := some reviewer_id
      rejection_reason :=
        if payload.decision = .rejected then payload.rejection_reason else none }
    let event_type :=
      if payload.decision = .approved then JourneyEventType.auditCheck
      else JourneyEventType.auditFail
    let note :=
      if payload.decision = .approved then "Approver B aprobó el recurso"
      else "Approver B rechazó: " ++ pyStr payload.rejection_reason
    let events := log_journey_event st.events st.asset.id (some reviewer_id)
      event_type (some previous_status) payload.decision note
      (some [("decision", .str payload.decision.value),
             ("rejection_reason", jsonOfOptStr payload.rejection_reason)])
    .ok { st with asset := asset, events := events }

/-! ### Audit decision parsing (`governance_service._parse_audit_decision`) -/

/-- `governance_service.AuditDecision` (a dataclass; `explanation` receives
whatever JSON value was extracted, Python does not coerce it). -/
structure AuditDecision where
  verdict : AuditVerdict
  explanation : Json
  confidence : ℚ

/-- Python `parsed.get("verdict") == "check"`. -/
def isCheckVerdict : Option Json → Bool
  | some (.str s) => s == "check"
  | _ => false

/-- `governance_service._parse_audit_decision`, given the JSON value
returned by `_extract_json_object` (which re-raises `json.loads` results
unchecked, so a non-object value reaches the field reads and `.get` raises
`AttributeError`). -/
def parse_audit_decision (parsed : Json) : Except PyErr AuditDecision := do
  let fields ← match parsed with
    | .obj fields => Except.ok fields
    | _ => Except.error PyErr.attributeError
  let verdict :=
    if isCheckVerdict (dictGet fields "verdict") then AuditVerdict.check
    else AuditVerdict.fail
  let confidence ← pyFloat ((dictGet fields "confidence").getD (.num (1 / 2)))
  let confidence := max 0 (min confidence 1)
  let explanation := (dictGet fields "explanation").getD (.str "No explanation returned")
  pure { verdict := verdict, explanation := explanation, confidence := confidence }

/-- The parse step of `audit_with_image`: `_extract_json_object` followed by
field extraction. The `raw` argument models the outcome of
`_extract_json_object(raw_result)` on the model's raw text output. -/
def audit_parse (raw : Except PyErr Json) : Except PyErr AuditDecision :=
  raw.bind parse_audit_decision

/-- Which exceptions the `except (TypeError, ValueError, json.JSONDecodeError)`
handler around `_parse_audit_decision` catches (and converts to 502). -/
def caught_by_audit_handler : PyErr → Bool
  | .valueError => true
  | .typeError => true
  | .attributeError => false

/-- The external collaborator calls `audit_with_image` can make, in order. -/
inductive ExtCall
  | ragRetrieve
  | generateMultimodal
deriving DecidableEq, Repr

/-- Outcome of one `audit_with_image` call: the resulting store slice, the
HTTP error raised (if any), and the external calls made before returning. -/
structure AuditResult where
  state : AssetState
  error : Option GovError
  external_calls : List ExtCall

/-- `governance_service.audit_with_image` on the looked-up asset's state.
`approver_id` is the current user, `image_label` the uploaded file's label,
`audit_id` the store-generated uuid for the new audit row, and `raw` the
extracted JSON of the multimodal model's response (see `audit_parse`). -/
def audit_with_image (approver_id image_label audit_id : String)
    (raw : Except PyErr Json) (st : AssetState) : AuditResult :=
  if st.asset.workflow_status ≠ .pendingB then
    { state := st, error := some .conflict, external_calls := [] }
  else
    let calls := [ExtCall.ragRetrieve, ExtCall.generateMultimodal]
    match audit_parse raw with
    | .error e =>
        { state := st
          error := some (if caught_by_audit_handler e then .badGateway else .internalError)
          external_calls := calls }
    | .ok result =>
        let previous_status := st.asset.workflow_status
        let next_status := st.asset.workflow_status
        let audit : MultimodalAudit :=
          { id := audit_id
            asset_id := st.asset.id
            approver_id := approver_id
            image_path := image_label
            verdict := result.verdict
            explanation := result.explanation
            confidence := result.confidence }
        let evNote := event_for_audit result.verdict
        let events := log_journey_event st.events st.asset.id (some approver_id)
          evNote.1 (some previous_status) next_status evNote.2
          (some [("verdict", .str result.verdict.value),
                 ("confidence", .num result.confidence),
                 ("explanation", result.explanation),
                 ("audit_id", .str audit_id)])
        { state := { asset := st.asset, events := events, audits := st.audits ++ [audit] }
          error := none
          external_calls := calls }

/-- `creative_assets_service.generate_asset`, reduced to the store writes:
the new asset row (status `PENDING_A`, no reviewers, no rejection reason)
and its `ASSET_CREATED` journal row. `generated_text` stands for the
external generation collaborator's output. -/
def generate_asset (asset_id manual_id creator_id : String)
    (asset_type : AssetType) (brief generated_text : String) : AssetState :=
  let asset : Asset :=
    { id := asset_id
      manual_id := manual_id
      created_by_id := creator_id
      asset_type := asset_type
      brief := brief
      generated_text := generated_text
      workflow_status := .pendingA
      reviewer_a_id := none
      reviewer_b_id := none
      rejection_reason := none
      created_at := 0 }
  let events := log_journey_event [] asset_id (some creator_id) .assetCreated
    none .pendingA "Asset creado por Creator y enviado a Approver A"
    (some [("manual_id", .str manual_id), ("asset_type", .str asset_type.value)])
  { asset := asset, events := events, audits := [] }

/-! ### Journey reconstruction (`creative_assets_service.get_asset_journey`) -/

/-- `app/schemas/creative_assets.py` `JourneyEventResponse` (the
actor-join fields `actor_name`/`actor_role`, filled from a relationship
lookup, are omitted). -/
structure JourneyEventResponse where
  id : String
  event_type : JourneyEventType
  from_status : Option WorkflowStatus
  to_status : WorkflowStatus
  note : String
  actor_id : Option String
  payload : Option (List (String × Json))
  created_at : ℕ

/-- `creative_assets_service._to_journey_event`. -/
def to_journey_event (e : JourneyEvent) : JourneyEventResponse :=
  { id := e.id
    event_type := e.event_type
    from_status := e.from_status
    to_status := e.to_status
    note := e.note
    actor_id := e.actor_id
    payload := e.payload
    created_at := e.created_at }

/-- The journal rows as loaded through the `CreativeAsset.journey_events`
relationship, whose `order_by` sorts ascending by `created_at` (Python's
stable sort, modelled by `List.insertionSort`). -/
def loaded_journey_events (stored : List JourneyEvent) : List JourneyEvent :=
  stored.insertionSort (fun e f => e.created_at ≤ f.created_at)

/-- `creative_assets_service.get_asset_journey` on the looked-up asset and
its stored journal rows, reduced to the event list of the response. -/
def get_asset_journey (asset : Asset) (stored : List JourneyEvent) :
    List JourneyEventResponse :=
  let evs := loaded_journey_events stored
  if evs.isEmpty then
    [{ id := "legacy-" ++ asset.id
       event_type := .assetCreated
       from_status := none
       to_status := asset.workflow_status
       note := "Este registro no tenía eventos históricos."
       actor_id := some asset.created_by_id
       payload := some [("legacy", .bool true)]
       created_at := asset.created_at }]
  else evs.map to_journey_event

/-! ### Reachable asset states -/

/-- One application of a core governance operation to an asset's store
slice. -/
inductive GovStep : AssetState → AssetState → Prop
  | reviewA (payload : ReviewARequest) (reviewer_id : String)
      (st st' : AssetState)
      (h : review_by_approver_a payload reviewer_id st = .ok st') :
      GovStep st st'
  | reviewB (payload : ReviewBRequest) (reviewer_id : String)
      (st st' : AssetState)
      (h : review_by_approver_b payload reviewer_id st = .ok st') :
      GovStep st st'
  | audit (approver_id image_label audit_id : String)
      (raw : Except PyErr Json) (st : AssetState)
      (h : (audit_with_image approver_id image_label audit_id raw st).error = none) :
      GovStep st (audit_with_image approver_id image_label audit_id raw st).state

/-- Asset states reachable from asset generation by core operations. -/
def GovReachable (st : AssetState) : Prop :=
  ∃ asset_id manual_id creator_id asset_type brief generated_text,
    Relation.ReflTransGen GovStep
      (generate_asset asset_id manual_id creator_id asset_type brief generated_text) st

/-- Stage-A requests as the review UI issues them: a `PENDING_B` decision
carries no rejection reason. -/
def StageARequestDisciplined (p : ReviewARequest) : Prop :=
  p.decision = .pendingB → p.rejection_reason = none

/-- Stage-B requests under the stage-A rejection policy: a `REJECTED`
decision carries a non-empty rejection reason. -/
def StageBRequestDisciplined (p : ReviewBRequest) : Prop :=
  p.decision = .rejected → pyTruthyStr p.rejection_reason = true

/-- `GovStep` restricted to disciplined review requests. -/
inductive DisciplinedStep : AssetState → AssetState → Prop
  | reviewA (payload : ReviewARequest) (reviewer_id : String)
      (st st' : AssetState)
      (hp : StageARequestDisciplined payload)
      (h : review_by_approver_a payload reviewer_id st = .ok st') :
      DisciplinedStep st st'
  | reviewB (payload : ReviewBRequest) (reviewer_id : String)
      (st st' : AssetState)
      (hp : StageBRequestDisciplined payload)
      (h : review_by_approver_b payload reviewer_id st = .ok st') :
      DisciplinedStep st st'
  | audit (approver_id image_label audit_id : String)
      (raw : Except PyErr Json) (st : AssetState)
      (h : (audit_with_image approver_id image_label audit_id raw st).error = none) :
      DisciplinedStep st (audit_with_image approver_id image_label audit_id raw st).state

/-- Asset states reachable from asset generation by disciplined core
operations. -/
def DisciplinedReachable (st : AssetState) : Prop :=
  ∃ asset_id manual_id creator_id asset_type brief generated_text,
    Relation.ReflTransGen DisciplinedStep
      (generate_asset asset_id manual_id creator_id asset_type brief generated_text) st

instance : IsTotal JourneyEvent (fun e f => e.created_at ≤ f.created_at) :=
  ⟨fun a b => Nat.le_total a.created_at b.created_at⟩

instance : IsTrans JourneyEvent (fun e f => e.created_at ≤ f.created_at) :=
  ⟨fun _ _ _ hab hbc => Nat.le_trans hab hbc⟩

/-! ### Concrete fixtures used to instantiate the theorems -/

/-- A concrete asset sitting in `PENDING_B` after a stage-A approval. -/
def assetB : Asset :=
  { id := "asset-1"
    manual_id := "manual-1"
    created_by_id := "creator-1"
    asset_type := .productDescription
    brief := "brief"
    generated_text := "text"
    workflow_status := .pendingB
    reviewer_a_id := some "approver-a-1"
    reviewer_b_id := none
    rejection_reason := none
    created_at := 0 }

/-- The store slice of `assetB` with an empty journal and no audits. -/
def stB : AssetState := { asset := assetB, events := [], audits := [] }

/-- The store slice of a terminal (`APPROVED`) asset. -/
def stApproved : AssetState :=
  { asset := { assetB with workflow_status := .approved, reviewer_b_id := some "approver-b-1" }
    events := []
    audits := [] }

/-- A well-formed extracted audit response. -/
def rawOk : Except PyErr Json :=
  .ok (.obj [("verdict", .str "check"), ("confidence", .num (87 / 100)),
             ("explanation", .str "ok")])

/-- The state `stB` reaches when approver B approves. -/
def stBApproved : AssetState :=
  { asset := { assetB with workflow_status := .approved, reviewer_b_id := some "approver-b-1" }
    events := [{ id := "event-0"
                 asset_id := "asset-1"
                 actor_id := some "approver-b-1"
                 event_type := .auditCheck
                 from_status := some .pendingB
                 to_status := .approved
                 note := "Approver B aprobó el recurso"
                 payload := some [("decision", .str "approved"),
                                  ("rejection_reason", .null)]
                 created_at := 0 }]
    audits := [] }

/-- A concrete chunk table over two scopes; `t1` and `t3` tie at distance 0
from the query `[1, 0]`, exercising the stable tie-break. -/
def chunksW : List RagChunk :=
  [{ manual_id := "X", chunk_index := 0, chunk_text := "t1", embedding := [1, 0] },
   { manual_id := "Y", chunk_index := 0, chunk_text := "t0", embedding := [1, 0] },
   { manual_id := "X", chunk_index := 1, chunk_text := "t2", embedding := [0, 1] },
   { manual_id := "X", chunk_index := 2, chunk_text := "t3", embedding := [1, 0] }]

/-! ## Theorems -/

/-- C4: `can_transition current target` is true exactly when `target` is in
the fixed adjacency-table row of `current`: from `PENDING_A` exactly
`{PENDING_B, REJECTED}`, from `PENDING_B` exactly `{APPROVED, REJECTED}`,
and nothing from the terminal states `APPROVED` and `REJECTED`. -/
theorem can_transition_iff_table (current target : WorkflowStatus) :
    can_transition current target = true ↔
      ((current = .pendingA ∧ (target = .pendingB ∨ target = .rejected)) ∨
       (current = .pendingB ∧ (target = .approved ∨ target = .rejected))) := by
  cases current <;> cases target <;> decide

/-- C3 counterexample: `Chunk("a\n\nb\n\nc", maxChars=4, separator="\n\n")`
returns the two chunks `["a\n\nb", "c"]`, not three: `"a"` and `"b"` merge
because the merged candidate `"a\n\nb"` has length exactly 4 ≤ maxChars. -/
theorem chunk_text_three_part_example_is_two_chunks :
    RagService.chunk_text "a\n\nb\n\nc" 4 "\n\n" = ["a\n\nb", "c"] ∧
    (RagService.chunk_text "a\n\nb\n\nc" 4 "\n\n").length ≠ 3 := by
  exact ⟨rfl, by decide⟩

/-- C3 amended: `Chunk("a\n\nb\n\nc", maxChars=4, separator="\n\n")` yields
exactly the two chunks `"a\n\nb"` and `"c"`, and
`Chunk("short text", maxChars=100, separator="\n\n")` yields exactly one
chunk equal to the trimmed input. -/
theorem chunk_text_examples :
    RagService.chunk_text "a\n\nb\n\nc" 4 "\n\n" = ["a\n\nb", "c"] ∧
    RagService.chunk_text "short text" 100 "\n\n" = ["short text"] :=
  ⟨rfl, rfl⟩

/-- C9: the fallback cosine-distance computation is division-safe: each
zero-safe norm factor is non-zero (a vanished square root is replaced by
1), so the denominator is never zero, and the function is defined on all
inputs including empty vectors, where it returns 1. -/
theorem cosine_distance_division_safe (a b : List ℚ) :
    RagService.pyOrOne (Rat.sqrt ((a.map (fun x => x * x)).sum)) *
      RagService.pyOrOne (Rat.sqrt ((b.map (fun y => y * y)).sum)) ≠ 0 ∧
    (∀ q : ℚ, Rat.sqrt q = 0 → RagService.pyOrOne (Rat.sqrt q) = 1) ∧
    RagService.cosine_distance [] b = 1 ∧
    RagService.cosine_distance a [] = 1 := by
  have hne : ∀ q : ℚ, RagService.pyOrOne q ≠ 0 := by
    intro q
    unfold RagService.pyOrOne
    split <;> simp_all
  refine ⟨mul_ne_zero (hne _) (hne _), ?_, ?_, ?_⟩
  · intro q hq
    simp [RagService.pyOrOne, hq]
  · simp [RagService.cosine_distance]
  · simp [RagService.cosine_distance]

/-- Witness for C9 at the zero vector `[0, 0]` against `[3]`. -/
theorem cosine_distance_division_safe_witness :
    RagService.pyOrOne (Rat.sqrt ((([(0 : ℚ), 0]).map (fun x => x * x)).sum)) *
      RagService.pyOrOne (Rat.sqrt ((([(3 : ℚ)]).map (fun y => y * y)).sum)) ≠ 0 ∧
    RagService.pyOrOne (Rat.sqrt 0) = 1 :=
  ⟨(cosine_distance_division_safe [0, 0] [3]).1,
   (cosine_distance_division_safe [0, 0] [3]).2.1 0 (by decide)⟩

/-- C2 counterexample: from the input
`{"verdict": "check", "confidence": "high"}` a JSON object is recovered,
yet the parser fails: `float("high")` raises `ValueError`, so the failure
is not confined to inputs with no recoverable JSON object. -/
theorem parse_audit_decision_fails_on_nonnumeric_confidence :
    parse_audit_decision
        (.obj [("verdict", Json.str "check"), ("confidence", Json.str "high")]) =
      .error .valueError := rfl

/-- The confidence field (or its absent-default `0.5`) converts to a float
without raising. -/
def ConfidenceConvertible (fields : List (String × Json)) : Prop :=
  ∃ q, pyFloat ((dictGet fields "confidence").getD (.num (1 / 2))) = .ok q

theorem isCheckVerdict_iff (o : Option Json) :
    isCheckVerdict o = true ↔ o = some (.str "check") := by
  match o with
  | none => simp [isCheckVerdict]
  | some (.str s) => simp [isCheckVerdict]
  | some .null | some (.bool _) | some (.num _) | some (.arr _) | some (.obj _) =>
      simp [isCheckVerdict]

/-- C2 amended: for every recovered JSON object whose confidence field is
absent or convertible to a number, field extraction succeeds and returns a
decision whose verdict is `CHECK` iff the verdict field equals the literal
`"check"`, whose confidence defaults to `0.5` when absent and is clamped
into `[0, 1]`, and whose explanation defaults to the fixed placeholder when
absent; but a present non-convertible confidence value makes the parser
raise even though a JSON object was recovered. -/
theorem parse_audit_decision_field_extraction (fields : List (String × Json))
    (h : ConfidenceConvertible fields) :
    ∃ d, parse_audit_decision (.obj fields) = .ok d ∧
      (d.verdict = .check ↔ dictGet fields "verdict" = some (.str "check")) ∧
      (dictGet fields "confidence" = none → d.confidence = 1 / 2) ∧
      0 ≤ d.confidence ∧ d.confidence ≤ 1 ∧
      (∀ q, pyFloat ((dictGet fields "confidence").getD (.num (1 / 2))) = .ok q →
        d.confidence = max 0 (min q 1)) ∧
      (dictGet fields "explanation" = none →
        d.explanation = .str "No explanation returned") ∧
      (∀ j, dictGet fields "explanation" = some j → d.explanation = j) := by
  obtain ⟨q, hq⟩ := h
  refine ⟨{ verdict := if isCheckVerdict (dictGet fields "verdict") then .check else .fail
            explanation := (dictGet fields "explanation").getD (.str "No explanation returned")
            confidence := max 0 (min q 1) }, ?_, ?_, ?_, ?_, ?_, ?_, ?_, ?_⟩
  · simp only [parse_audit_decision, bind, Except.bind, hq]
    rfl
  · constructor
    · intro hv
      rw [← isCheckVerdict_iff]
      by_contra hfalse
      simp only [Bool.not_eq_true] at hfalse
      simp [hfalse] at hv
    · intro hv
      simp [(isCheckVerdict_iff _).mpr hv]
  · intro hnone
    have : q = 1 / 2 := by
      rw [hnone] at hq
      simpa [pyFloat] using hq.symm
    subst this
    norm_num
  · exact le_max_left _ _
  · exact max_le (by norm_num) (min_le_right _ _)
  · intro q' hq'
    rw [hq] at hq'
    simp_all
  · intro hnone
    simp [hnone]
  · intro j hj
    simp [hj]

/-- Witness for C2's amended theorem at
`{"verdict": "check", "confidence": 0.87, "explanation": "ok"}`. -/
theorem parse_audit_decision_field_extraction_witness :
    ∃ d, parse_audit_decision (.obj [("verdict", Json.str "check"),
        ("confidence", Json.num (87 / 100)), ("explanation", Json.str "ok")]) = .ok d ∧
      (d.verdict = .check ↔
        dictGet [("verdict", Json.str "check"), ("confidence", Json.num (87 / 100)),
          ("explanation", Json.str "ok")] "verdict" = some (.str "check")) ∧
      (dictGet [("verdict", Json.str "check"), ("confidence", Json.num (87 / 100)),
          ("explanation", Json.str "ok")] "confidence" = none → d.confidence = 1 / 2) ∧
      0 ≤ d.confidence ∧ d.confidence ≤ 1 ∧
      (∀ q, pyFloat ((dictGet [("verdict", Json.str "check"),
          ("confidence", Json.num (87 / 100)), ("explanation", Json.str "ok")]
            "confidence").getD (.num (1 / 2))) = .ok q →
        d.confidence = max 0 (min q 1)) ∧
      (dictGet [("verdict", Json.str "check"), ("confidence", Json.num (87 / 100)),
          ("explanation", Json.str "ok")] "explanation" = none →
        d.explanation = .str "No explanation returned") ∧
      (∀ j, dictGet [("verdict", Json.str "check"), ("confidence", Json.num (87 / 100)),
          ("explanation", Json.str "ok")] "explanation" = some j → d.explanation = j) :=
  parse_audit_decision_field_extraction _ ⟨87 / 100, rfl⟩

/-- C5: a successful `audit_with_image` call (asset in `PENDING_B`, parse
succeeded) leaves every asset field unchanged, persists exactly one audit
record, and emits exactly one journey event whose type is `AUDIT_CHECK`
for a `CHECK` verdict and `AUDIT_FAIL` for a `FAIL` verdict, whose
`from_status` and `to_status` both equal the unchanged status, and whose
payload carries verdict, confidence, explanation and the audit record's
identity. -/
theorem audit_with_image_success_frame (approver_id image_label audit_id : String)
    (raw : Except PyErr Json) (st : AssetState) (result : AuditDecision)
    (hstatus : st.asset.workflow_status = .pendingB)
    (hparse : audit_parse raw = .ok result) :
    (audit_with_image approver_id image_label audit_id raw st).error = none ∧
    (audit_with_image approver_id image_label audit_id raw st).state.asset = st.asset ∧
    (audit_with_image approver_id image_label audit_id raw st).state.audits =
      st.audits ++
        [{ id := audit_id, asset_id := st.asset.id, approver_id := approver_id,
           image_path := image_label, verdict := result.verdict,
           explanation := result.explanation, confidence := result.confidence }] ∧
    ∃ e, (audit_with_image approver_id image_label audit_id raw st).state.events =
        st.events ++ [e] ∧
      e.event_type =
        (if result.verdict = .check then JourneyEventType.auditCheck
         else JourneyEventType.auditFail) ∧
      e.from_status = some st.asset.workflow_status ∧
      e.to_status = st.asset.workflow_status ∧
      e.actor_id = some approver_id ∧
      e.payload = some [("verdict", .str result.verdict.value),
                        ("confidence", .num result.confidence),
                        ("explanation", result.explanation),
                        ("audit_id", .str audit_id)] := by
  have hne : ¬ st.asset.workflow_status ≠ WorkflowStatus.pendingB := by simp [hstatus]
  refine ⟨?_, ?_, ?_, ?_⟩ <;> simp only [audit_with_image, if_neg hne, hparse]
  exact ⟨_, rfl, by cases result.verdict <;> rfl, rfl, rfl, rfl, rfl⟩

/-- Witness for C5: auditing `stB` with the response
`{"verdict": "check", "confidence": 0.87, "explanation": "ok"}`. -/
theorem audit_with_image_success_frame_witness :
    (audit_with_image "approver-b-1" "img.jpg" "audit-1" rawOk stB).error = none ∧
    (audit_with_image "approver-b-1" "img.jpg" "audit-1" rawOk stB).state.asset = stB.asset ∧
    (audit_with_image "approver-b-1" "img.jpg" "audit-1" rawOk stB).state.audits =
      stB.audits ++
        [{ id := "audit-1", asset_id := stB.asset.id, approver_id := "approver-b-1",
           image_path := "img.jpg", verdict := AuditVerdict.check,
           explanation := .str "ok", confidence := 87 / 100 }] ∧
    ∃ e, (audit_with_image "approver-b-1" "img.jpg" "audit-1" rawOk stB).state.events =
        stB.events ++ [e] ∧
      e.event_type =
        (if AuditVerdict.check = AuditVerdict.check then JourneyEventType.auditCheck
         else JourneyEventType.auditFail) ∧
      e.from_status = some stB.asset.workflow_status ∧
      e.to_status = stB.asset.workflow_status ∧
      e.actor_id = some "approver-b-1" ∧
      e.payload = some [("verdict", .str (AuditVerdict.check).value),
                        ("confidence", .num (87 / 100)),
                        ("explanation", .str "ok"),
                        ("audit_id", .str "audit-1")] := by
  have hclamp : max (0 : ℚ) (min (87 / 100) 1) = 87 / 100 := by norm_num
  have hp : audit_parse rawOk =
      .ok { verdict := .check, explanation := .str "ok", confidence := 87 / 100 } := by
    have h0 : audit_parse rawOk =
        .ok { verdict := .check, explanation := .str "ok",
              confidence := max (0 : ℚ) (min (87 / 100) 1) } := rfl
    rw [h0, hclamp]
  exact audit_with_image_success_frame "approver-b-1" "img.jpg" "audit-1" rawOk stB
    { verdict := .check, explanation := .str "ok", confidence := 87 / 100 } rfl hp

/-- C6 counterexample: when the model's output is the recoverable JSON
value `[]` (not an object), audit-decision parsing fails with
`AttributeError`, which the 502 handler does not catch: the operation
surfaces an internal error, not a gateway-class one (atomicity does still
hold: the state is untouched). -/
theorem audit_parse_failure_not_gateway :
    audit_parse (.ok (Json.arr [])) = .error .attributeError ∧
    (audit_with_image "approver-b-1" "img.jpg" "audit-1" (.ok (Json.arr [])) stB).error =
      some .internalError ∧
    (audit_with_image "approver-b-1" "img.jpg" "audit-1" (.ok (Json.arr [])) stB).error ≠
      some .badGateway ∧
    (audit_with_image "approver-b-1" "img.jpg" "audit-1" (.ok (Json.arr [])) stB).state =
      stB := by
  exact ⟨rfl, rfl, by decide, rfl⟩

/-- C6 amended: `audit_with_image` is atomic on its error paths — outside
`PENDING_B` it fails with a conflict error, no external calls, no mutation
and no journal entry; on a parse failure it makes the two external calls
and fails with a gateway-class error when the failure is a caught
conversion error (`TypeError`/`ValueError`/JSON decode), or with an
uncaught internal error when the recovered JSON value is not an object —
in every error case the asset, its audits and its journey-event sequence
are exactly as before the call. -/
theorem audit_with_image_atomic (approver_id image_label audit_id : String)
    (raw : Except PyErr Json) (st : AssetState)
    (h : st.asset.workflow_status ≠ .pendingB ∨ ∃ e, audit_parse raw = .error e) :
    (audit_with_image approver_id image_label audit_id raw st).state = st ∧
    (audit_with_image approver_id image_label audit_id raw st).error.isSome = true ∧
    (st.asset.workflow_status ≠ .pendingB →
      (audit_with_image approver_id image_label audit_id raw st).error = some .conflict ∧
      (audit_with_image approver_id image_label audit_id raw st).external_calls = []) ∧
    (∀ e, st.asset.workflow_status = .pendingB → audit_parse raw = .error e →
      (audit_with_image approver_id image_label audit_id raw st).error =
        some (if caught_by_audit_handler e then GovError.badGateway
              else GovError.internalError) ∧
      (audit_with_image approver_id image_label audit_id raw st).external_calls =
        [.ragRetrieve, .generateMultimodal]) := by
  by_cases hs : st.asset.workflow_status = .pendingB
  · obtain hbad | ⟨e, he⟩ := h
    · exact absurd hs hbad
    · have hne : ¬ st.asset.workflow_status ≠ WorkflowStatus.pendingB := by simp [hs]
      have hred : audit_with_image approver_id image_label audit_id raw st =
          { state := st
            error := some (if caught_by_audit_handler e then GovError.badGateway
              else GovError.internalError)
            external_calls := [.ragRetrieve, .generateMultimodal] } := by
        simp only [audit_with_image, if_neg hne, he]
      rw [hred]
      refine ⟨rfl, rfl, fun hc => absurd hs hc, ?_⟩
      intro e' _ he'
      rw [he] at he'
      injection he' with hee
      subst hee
      exact ⟨rfl, rfl⟩
  · have hred : audit_with_image approver_id image_label audit_id raw st =
        { state := st, error := some .conflict, external_calls := [] } := by
      simp only [audit_with_image, if_pos hs]
    rw [hred]
    exact ⟨rfl, rfl, fun _ => ⟨rfl, rfl⟩, fun e hpend _ => absurd hpend hs⟩

/-- Witness for C6's amended theorem: auditing the terminal `stApproved`
conflicts with no external calls, and auditing `stB` against a
non-numeric-confidence response fails as a gateway error. -/
theorem audit_with_image_atomic_witness :
    ((audit_with_image "u" "img.jpg" "audit-1" rawOk stApproved).state = stApproved ∧
      (audit_with_image "u" "img.jpg" "audit-1" rawOk stApproved).error = some .conflict ∧
      (audit_with_image "u" "img.jpg" "audit-1" rawOk stApproved).external_calls = []) ∧
    ((audit_with_image "u" "img.jpg" "audit-1"
        (.ok (.obj [("confidence", .str "high")])) stB).state = stB ∧
      (audit_with_image "u" "img.jpg" "audit-1"
        (.ok (.obj [("confidence", .str "high")])) stB).error = some .badGateway) := by
  have h1 := audit_with_image_atomic "u" "img.jpg" "audit-1" rawOk stApproved
    (Or.inl (by decide))
  have h2 := audit_with_image_atomic "u" "img.jpg" "audit-1"
    (.ok (.obj [("confidence", .str "high")])) stB (Or.inr ⟨.valueError, rfl⟩)
  refine ⟨⟨h1.1, (h1.2.2.1 (by decide)).1, (h1.2.2.1 (by decide)).2⟩,
          h2.1, (h2.2.2.2 .valueError rfl rfl).1⟩

/-- C10: a successful stage-B review records exactly one journal event
whose `event_type` is `AUDIT_CHECK` on approval and `AUDIT_FAIL` on
rejection — the same two tags `_event_for_audit` assigns to multimodal
audits — and the event-type vocabulary contains no stage-B-specific tag:
its only members are `ASSET_CREATED`, `REVIEW_A_APPROVED`,
`REVIEW_A_REJECTED`, `AUDIT_CHECK` and `AUDIT_FAIL`. -/
theorem review_b_event_type_shared_with_audit (payload : ReviewBRequest)
    (reviewer_id : String) (st st' : AssetState)
    (h : review_by_approver_b payload reviewer_id st = .ok st') :
    (∃ e, st'.events = st.events ++ [e] ∧
      e.event_type =
        (if payload.decision = .approved then JourneyEventType.auditCheck
         else JourneyEventType.auditFail) ∧
      (payload.decision = .approved → e.event_type = (event_for_audit .check).1) ∧
      (payload.decision = .rejected → e.event_type = (event_for_audit .fail).1)) ∧
    (∀ t : JourneyEventType, t = .assetCreated ∨ t = .reviewAApproved ∨
      t = .reviewARejected ∨ t = .auditCheck ∨ t = .auditFail) := by
  constructor
  · by_cases ha : payload.decision = .approved
    · simp only [review_by_approver_b, ha] at h
      simp at h
      split at h
      · exact absurd h (by simp)
      · injection h with h
        subst h
        refine ⟨_, rfl, by simp [ha], fun _ => rfl, fun hr => ?_⟩
        rw [ha] at hr
        exact absurd hr (by decide)
    · by_cases hr : payload.decision = .rejected
      · simp only [review_by_approver_b, hr] at h
        simp at h
        split at h
        · exact absurd h (by simp)
        · injection h with h
          subst h
          refine ⟨_, rfl, by simp [ha], fun hap => absurd hap ha, fun _ => rfl⟩
      · simp [review_by_approver_b, ha, hr] at h
  · intro t
    cases t <;> simp

/-- Witness for C10: approver B approving `stB`. -/
theorem review_b_event_type_shared_with_audit_witness :
    (∃ e, stBApproved.events = stB.events ++ [e] ∧
      e.event_type =
        (if (WorkflowStatus.approved : WorkflowStatus) = .approved
         then JourneyEventType.auditCheck else JourneyEventType.auditFail) ∧
      ((WorkflowStatus.approved : WorkflowStatus) = .approved →
        e.event_type = (event_for_audit .check).1) ∧
      ((WorkflowStatus.approved : WorkflowStatus) = .rejected →
        e.event_type = (event_for_audit .fail).1)) ∧
    (∀ t : JourneyEventType, t = .assetCreated ∨ t = .reviewAApproved ∨
      t = .reviewARejected ∨ t = .auditCheck ∨ t = .auditFail) :=
  review_b_event_type_shared_with_audit
    { decision := .approved, rejection_reason := none } "approver-b-1" stB stBApproved rfl

/-- C8: `GetJourney` for an existing asset with zero recorded events
returns exactly one synthesized legacy event (`ASSET_CREATED`, null
`from_status`, `to_status` the asset's current status, actor the asset's
creator, a synthesized-flag note, `legacy: true` payload); with at least
one recorded event it returns exactly the stored events in ascending
creation-time order; so the journey view is always non-empty. -/
theorem get_asset_journey_reconstruction (asset : Asset) (stored : List JourneyEvent) :
    (stored = [] →
      get_asset_journey asset stored =
        [{ id := "legacy-" ++ asset.id
           event_type := .assetCreated
           from_status := none
           to_status := asset.workflow_status
           note := "Este registro no tenía eventos históricos."
           actor_id := some asset.created_by_id
           payload := some [("legacy", .bool true)]
           created_at := asset.created_at }]) ∧
    (stored ≠ [] →
      get_asset_journey asset stored =
        (loaded_journey_events stored).map to_journey_event ∧
      (loaded_journey_events stored).Perm stored ∧
      List.Sorted (fun e f => e.created_at ≤ f.created_at)
        (loaded_journey_events stored)) ∧
    get_asset_journey asset stored ≠ [] := by
  have hperm : (loaded_journey_events stored).Perm stored :=
    List.perm_insertionSort _ stored
  have hsorted : List.Sorted (fun e f => e.created_at ≤ f.created_at)
      (loaded_journey_events stored) :=
    List.sorted_insertionSort _ stored
  by_cases hst : stored = []
  · subst hst
    exact ⟨fun _ => rfl, fun hc => absurd rfl hc, by simp [get_asset_journey,
      loaded_journey_events]⟩
  · have hload : loaded_journey_events stored ≠ [] := by
      intro hl
      exact hst (List.Perm.eq_nil (hl ▸ hperm).symm)
    have hcond : (loaded_journey_events stored).isEmpty = false := by
      rcases hl : loaded_journey_events stored with _ | ⟨a, l⟩
      · exact absurd hl hload
      · rfl
    have hmain : get_asset_journey asset stored =
        (loaded_journey_events stored).map to_journey_event := by
      simp only [get_asset_journey, hcond, Bool.false_eq_true, if_false]
    refine ⟨fun hc => absurd hc hst, fun _ => ⟨hmain, hperm, hsorted⟩, ?_⟩
    rw [hmain]
    rcases hl : loaded_journey_events stored with _ | ⟨a, l⟩
    · exact absurd hl hload
    · simp

/-- Witness for C8: the journey of `assetB` with an empty stored journal is
the single synthesized legacy event. -/
theorem get_asset_journey_reconstruction_witness :
    get_asset_journey assetB [] =
      [{ id := "legacy-" ++ assetB.id
         event_type := .assetCreated
         from_status := none
         to_status := assetB.workflow_status
         note := "Este registro no tenía eventos históricos."
         actor_id := some assetB.created_by_id
         payload := some [("legacy", .bool true)]
         created_at := assetB.created_at }] :=
  (get_asset_journey_reconstruction assetB []).1 rfl

/-- C1 counterexample: from a freshly generated asset, a stage-A review
with decision `PENDING_B` and a non-null `rejection_reason` (which the
request schema admits) succeeds and reaches a state whose status is
`PENDING_B` — the most recent transition outcome is not `REJECTED` — yet
whose `rejection_reason` is non-null, because `review_by_approver_a`
copies the request's `rejection_reason` unconditionally. Since every
transition sets the status to its outcome and audits change nothing, the
claimed invariant at a reachable state reads
`rejection_reason ≠ none ↔ workflow_status = REJECTED`. -/
theorem rejection_reason_invariant_counterexample :
    ∃ st', review_by_approver_a
        { decision := .pendingB, rejection_reason := some "nitpick" } "approver-a-1"
        (generate_asset "asset-1" "manual-1" "creator-1" .productDescription
          "brief" "text") = .ok st' ∧
      GovReachable st' ∧
      st'.asset.workflow_status = .pendingB ∧
      st'.asset.rejection_reason = some "nitpick" ∧
      ¬ (st'.asset.rejection_reason ≠ none ↔
          st'.asset.workflow_status = .rejected) := by
  refine ⟨_, rfl, ?_, rfl, rfl, ?_⟩
  · exact ⟨"asset-1", "manual-1", "creator-1", .productDescription, "brief", "text",
      Relation.ReflTransGen.single
        (GovStep.reviewA { decision := .pendingB, rejection_reason := some "nitpick" }
          "approver-a-1" _ _ rfl)⟩
  · intro hiff
    exact absurd (hiff.mp (by decide)) (by decide)

theorem disciplined_step_preserves_rejection_invariant {s t : AssetState}
    (hstep : DisciplinedStep s t)
    (ih : s.asset.rejection_reason ≠ none ↔ s.asset.workflow_status = .rejected) :
    t.asset.rejection_reason ≠ none ↔ t.asset.workflow_status = .rejected := by
  cases hstep with
  | reviewA payload reviewer_id st st' hp h =>
      by_cases ha : payload.decision = .pendingB
      · simp only [review_by_approver_a, ha] at h
        simp at h
        split at h
        · exact absurd h (by simp)
        · injection h with h
          subst h
          simp [hp ha, ha]
      · by_cases hr : payload.decision = .rejected
        · simp only [review_by_approver_a, hr] at h
          simp at h
          split at h
          · exact absurd h (by simp)
          · split at h
            · exact absurd h (by simp)
            · injection h with h
              subst h
              rename_i htruthy
              rcases hrr : payload.rejection_reason with _ | s
              · rw [hrr] at htruthy
                exact absurd rfl htruthy
              · simp [hrr, hr]
        · simp [review_by_approver_a, ha, hr] at h
  | reviewB payload reviewer_id st st' hp h =>
      by_cases ha : payload.decision = .approved
      · simp only [review_by_approver_b, ha] at h
        simp at h
        split at h
        · exact absurd h (by simp)
        · injection h with h
          subst h
          simp [ha]
      · by_cases hr : payload.decision = .rejected
        · simp only [review_by_approver_b, hr] at h
          simp at h
          split at h
          · exact absurd h (by simp)
          · injection h with h
            subst h
            have htruthy := hp hr
            rcases hrr : payload.rejection_reason with _ | s
            · rw [hrr] at htruthy
              exact absurd htruthy (by decide)
            · simp [hrr, hr]
        · simp [review_by_approver_b, ha, hr] at h
  | audit approver_id image_label audit_id raw st h =>
      by_cases hs : s.asset.workflow_status = .pendingB
      · have hne : ¬ s.asset.workflow_status ≠ WorkflowStatus.pendingB := by simp [hs]
        cases hap : audit_parse raw with
        | error e => simp [audit_with_image, if_neg hne, hap] at h
        | ok result =>
            have hasset : (audit_with_image approver_id image_label audit_id raw
                s).state.asset = s.asset := by
              simp only [audit_with_image, if_neg hne, hap]
            rw [hasset]
            exact ih
      · simp [audit_with_image, if_pos hs] at h

/-- C1 amended: along every sequence of core operations whose stage-A
`PENDING_B` requests carry no `rejection_reason` and whose stage-B
`REJECTED` requests carry a non-empty one, every reachable asset state
satisfies the invariant: `rejection_reason` is non-null iff the most
recent transition outcome (the current status) is `REJECTED`; in
particular after a disciplined stage-A `PENDING_B` review the reason is
null. Without that request discipline the invariant fails (see the
counterexample). -/
theorem rejection_reason_invariant_holds (st : AssetState)
    (h : DisciplinedReachable st) :
    st.asset.rejection_reason ≠ none ↔ st.asset.workflow_status = .rejected := by
  obtain ⟨a, m, c, ty, b, g, hsteps⟩ := h
  induction hsteps with
  | refl => simp [generate_asset]
  | tail _ step ih => exact disciplined_step_preserves_rejection_invariant step ih

/-- Witness for C1's amended theorem at a freshly generated asset. -/
theorem rejection_reason_invariant_holds_witness :
    (generate_asset "asset-1" "manual-1" "creator-1" .productDescription "brief"
      "text").asset.rejection_reason ≠ none ↔
    (generate_asset "asset-1" "manual-1" "creator-1" .productDescription "brief"
      "text").asset.workflow_status = .rejected :=
  rejection_reason_invariant_holds _
    ⟨"asset-1", "manual-1", "creator-1", .productDescription, "brief", "text",
      Relation.ReflTransGen.refl⟩

theorem orderedInsert_congr {α : Type} (r r' : α → α → Prop) [DecidableRel r]
    [DecidableRel r'] (a : α) :
    ∀ l : List α, (∀ b ∈ l, r a b ↔ r' a b) →
      List.orderedInsert r a l = List.orderedInsert r' a l
  | [], _ => rfl
  | b :: l, h => by
      simp only [List.orderedInsert]
      by_cases hb : r a b
      · rw [if_pos hb, if_pos ((h b (List.mem_cons_self b l)).mp hb)]
      · rw [if_neg hb, if_neg (fun hb' => hb ((h b (List.mem_cons_self b l)).mpr hb')),
          orderedInsert_congr r r' a l (fun c hc => h c (List.mem_cons_of_mem b hc))]

theorem orderedInsert_map_snd {α : Type} (k : α → ℚ) (a : ℕ × α) :
    ∀ l : List (ℕ × α),
      (List.orderedInsert (fun c d => k c.2 ≤ k d.2) a l).map Prod.snd =
        List.orderedInsert (fun c d => k c ≤ k d) a.2 (l.map Prod.snd)
  | [] => rfl
  | b :: l => by
      simp only [List.orderedInsert, List.map_cons]
      by_cases hb : k a.2 ≤ k b.2
      · rw [if_pos hb, if_pos hb]
        simp
      · rw [if_neg hb, if_neg hb, List.map_cons, orderedInsert_map_snd k a l]

theorem insertionSort_map_snd {α : Type} (k : α → ℚ) :
    ∀ l : List (ℕ × α),
      (List.insertionSort (fun c d => k c.2 ≤ k d.2) l).map Prod.snd =
        List.insertionSort (fun c d => k c ≤ k d) (l.map Prod.snd)
  | [] => rfl
  | a :: l => by
      simp only [List.insertionSort, List.map_cons]
      rw [orderedInsert_map_snd k a, insertionSort_map_snd k l]

theorem mem_withIdx_le {α : Type} :
    ∀ (l : List α) (n : ℕ) (b : ℕ × α), b ∈ withIdx n l → n ≤ b.1
  | [], _, b, h => absurd h (List.not_mem_nil b)
  | a :: l, n, b, h => by
      rcases List.mem_cons.mp h with rfl | h'
      · exact le_refl n
      · exact Nat.le_of_succ_le (mem_withIdx_le l (n + 1) b h')

theorem withIdx_map_snd {α : Type} :
    ∀ (l : List α) (n : ℕ), (withIdx n l).map Prod.snd = l
  | [], _ => rfl
  | a :: l, n => by simp [withIdx, withIdx_map_snd l (n + 1)]

/-- A stable sort by key alone coincides with a sort by the lexicographic
(key, original position) order on a position-tagged list. -/
theorem insertionSort_withIdx_lex {α : Type} (k : α → ℚ) :
    ∀ (l : List α) (n : ℕ),
      List.insertionSort (fun c d : ℕ × α => k c.2 ≤ k d.2) (withIdx n l) =
        List.insertionSort
          (fun c d : ℕ × α => k c.2 < k d.2 ∨ (k c.2 = k d.2 ∧ c.1 ≤ d.1))
          (withIdx n l)
  | [], _ => rfl
  | a :: l, n => by
      simp only [withIdx, List.insertionSort]
      rw [insertionSort_withIdx_lex k l (n + 1)]
      apply orderedInsert_congr
      intro b hb
      have hbmem : b ∈ withIdx (n + 1) l :=
        (List.perm_insertionSort _ _).mem_iff.mp hb
      have hn : n + 1 ≤ b.1 := mem_withIdx_le l (n + 1) b hbmem
      constructor
      · intro hle
        rcases lt_or_eq_of_le hle with hlt | heq
        · exact Or.inl hlt
        · exact Or.inr ⟨heq, le_trans (Nat.le_succ n) hn⟩
      · rintro (hlt | ⟨heq, _⟩)
        · exact le_of_lt hlt
        · exact le_of_eq heq

/-- C7: the fallback retrieval path equals the spec ordering (scope chunks
sorted ascending by cosine distance, ties broken by original chunk order,
first `top_k` taken); every returned text comes from a chunk of the
requested scope; the result length is `min top_k (scope size)`, so a scope
with fewer than `top_k` chunks returns all of them; and an empty scope
returns the empty sequence. -/
theorem retrieve_relevant_chunks_correct (chunks : List RagChunk)
    (scope_id : String) (query_embedding : List ℚ) (top_k : ℕ) :
    RagService.retrieve_relevant_chunks chunks scope_id query_embedding top_k =
      retrieveSpec chunks scope_id query_embedding top_k ∧
    (∀ t ∈ RagService.retrieve_relevant_chunks chunks scope_id query_embedding top_k,
      ∃ c, c ∈ chunks ∧ c.manual_id = scope_id ∧ c.chunk_text = t) ∧
    (RagService.retrieve_relevant_chunks chunks scope_id query_embedding top_k).length =
      min top_k (chunks.filter (fun c => decide (c.manual_id = scope_id))).length ∧
    (chunks.filter (fun c => decide (c.manual_id = scope_id)) = [] →
      RagService.retrieve_relevant_chunks chunks scope_id query_embedding top_k = []) := by
  have hchain :
      (List.insertionSort
        (fun c d : ℕ × RagChunk =>
          RagService.cosine_distance c.2.embedding query_embedding <
            RagService.cosine_distance d.2.embedding query_embedding ∨
          (RagService.cosine_distance c.2.embedding query_embedding =
            RagService.cosine_distance d.2.embedding query_embedding ∧ c.1 ≤ d.1))
        (withIdx 0 (chunks.filter (fun c => decide (c.manual_id = scope_id))))).map
          Prod.snd =
      List.insertionSort
        (fun c d : RagChunk =>
          RagService.cosine_distance c.embedding query_embedding ≤
            RagService.cosine_distance d.embedding query_embedding)
        (chunks.filter (fun c => decide (c.manual_id = scope_id))) := by
    rw [← insertionSort_withIdx_lex
        (fun c : RagChunk => RagService.cosine_distance c.embedding query_embedding) _ 0,
      insertionSort_map_snd
        (fun c : RagChunk => RagService.cosine_distance c.embedding query_embedding),
      withIdx_map_snd]
  have hspec : retrieveSpec chunks scope_id query_embedding top_k =
      RagService.retrieve_relevant_chunks chunks scope_id query_embedding top_k := by
    show (((List.insertionSort _ (withIdx 0 _)).map Prod.snd).take top_k).map _ = _
    rw [hchain]
    rfl
  refine ⟨hspec.symm, ?_, ?_, ?_⟩
  · intro t ht
    obtain ⟨c, hc, rfl⟩ := List.mem_map.mp ht
    have hc1 : c ∈ List.insertionSort
        (fun c d : RagChunk =>
          RagService.cosine_distance c.embedding query_embedding ≤
            RagService.cosine_distance d.embedding query_embedding)
        (chunks.filter (fun c => decide (c.manual_id = scope_id))) :=
      List.take_subset _ _ hc
    have hc2 : c ∈ chunks.filter (fun c => decide (c.manual_id = scope_id)) :=
      (List.perm_insertionSort _ _).mem_iff.mp hc1
    have hc3 := List.mem_filter.mp hc2
    exact ⟨c, hc3.1, of_decide_eq_true hc3.2, rfl⟩
  · show (((List.insertionSort _ _).take top_k).map _).length = _
    rw [List.length_map, List.length_take,
      (List.perm_insertionSort _ _).length_eq]
  · intro h0
    show (((List.insertionSort _ _).take top_k).map _) = _
    rw [h0]
    simp

/-- Witness for C7 on `chunksW`: scope `"X"`, query `[1, 0]`, `top_k = 2`
returns `["t1", "t3"]` (the tied chunks in original order, the off-scope
`t0` never returned). -/
theorem retrieve_relevant_chunks_correct_witness :
    RagService.retrieve_relevant_chunks chunksW "X" [1, 0] 2 = ["t1", "t3"] ∧
    retrieveSpec chunksW "X" [1, 0] 2 = ["t1", "t3"] ∧
    (∃ c, c ∈ chunksW ∧ c.manual_id = "X" ∧ c.chunk_text = "t1") ∧
    (RagService.retrieve_relevant_chunks chunksW "X" [1, 0] 2).length =
      min 2 (chunksW.filter (fun c => decide (c.manual_id = "X"))).length := by
  have h := retrieve_relevant_chunks_correct chunksW "X" [1, 0] 2
  have hs1 : Rat.sqrt 1 = 1 := by
    norm_num [Rat.sqrt_ofNat]
  have hd0 : RagService.cosine_distance [1, 0] [1, 0] = 0 := by
    norm_num [RagService.cosine_distance, RagService.pyOrOne, hs1]
  have hd1 : RagService.cosine_distance [0, 1] [1, 0] = 1 := by
    norm_num [RagService.cosine_distance, RagService.pyOrOne, hs1]
  have hv : RagService.retrieve_relevant_chunks chunksW "X" [1, 0] 2 = ["t1", "t3"] := by
    show (((chunksW.filter (fun c => decide (c.manual_id = "X"))).insertionSort _).take
      2).map _ = _
    rw [show chunksW.filter (fun c => decide (c.manual_id = "X")) =
      [{ manual_id := "X", chunk_index := 0, chunk_text := "t1", embedding := [1, 0] },
       { manual_id := "X", chunk_index := 1, chunk_text := "t2", embedding := [0, 1] },
       { manual_id := "X", chunk_index := 2, chunk_text := "t3", embedding := [1, 0] }]
      from rfl]
    simp only [List.insertionSort, List.orderedInsert, hd0, hd1]
    norm_num
  refine ⟨hv, ?_, ?_, h.2.2.1⟩
  · rw [h.1] at hv
    exact hv
  · refine h.2.1 "t1" ?_
    rw [hv]
    simp

end ContentSuite
